import Mathlib

/-!
Verification of the MAGiC genetic-circuit designer core.

The backend pipeline (parameter-override resolution, circuit assembly,
regulation resolution, ODE compilation) is embedded from the Python code
excerpts contained in the repository's developer documentation
(src/unnamed/part_001, src/unnamed/part_002); the frontend board state
logic is embedded from src/unnamed/part_000 (eeprom.js).  Helper bodies
that are not excerpted anywhere in the repository are modelled from the
specification and marked as such in their doc comments.
-/

namespace MAGiC

/-! ## String helpers

Kernel-computable models of the Python string operations used by the
override parser: `str.startswith`, the `in` substring test, `str.replace`
and `str.lower`.  They operate on the character list of a `String` by
structural recursion so that concrete instances evaluate by `decide`.
-/

/-- Model of Python `s.startswith(pre)`. -/
def strStarts (s pre : String) : Bool :=
  pre.data.isPrefixOf s.data

/-- Auxiliary recursion for the substring test. -/
def listHasInfixAux : List Char → List Char → Bool
  | s, pat =>
    pat.isPrefixOf s ||
      match s with
      | [] => false
      | _ :: rest => listHasInfixAux rest pat

/-- Model of Python `pat in s` (substring containment). -/
def strHasSub (s pat : String) : Bool :=
  listHasInfixAux s.data pat.data

/-- Fuel-indexed replacement of every occurrence of `pat` by `rep`;
the fuel is instantiated with the length of the subject string, which
always suffices because each step consumes at least one character. -/
def replaceCharsAux : Nat → List Char → List Char → List Char → List Char
  | 0, s, _, _ => s
  | _ + 1, [], _, _ => []
  | fuel + 1, c :: rest, pat, rep =>
    if pat.isPrefixOf (c :: rest) && !pat.isEmpty then
      rep ++ replaceCharsAux fuel ((c :: rest).drop pat.length) pat rep
    else
      c :: replaceCharsAux fuel rest pat rep

/-- Model of Python `s.replace(pat, rep)` (non-empty patterns). -/
def strReplace (s pat rep : String) : String :=
  ⟨replaceCharsAux s.data.length s.data pat.data rep.data⟩

/-- Model of Python `s.lower()` / JavaScript `toLowerCase()`. -/
def strLower (s : String) : String :=
  ⟨s.data.map Char.toLower⟩

/-! ## Parameter override resolver

Embedded from the `/simulate` endpoint excerpt (src/unnamed/part_001,
lines 420-479): a copy of the component-constants registry is adjusted
only when the apply flag is set and the dial data is non-empty; first the
per-instance overrides are applied (priority 1), then the global
multipliers (priority 2).  The excerpt shows the `promoterN_strength`
and `cdsN_degradation_rate` individual branches and the
`global_transcription_rate` / `global_degradation_rate` multipliers; the
remaining branches are elided there ("similar for rbs, translation_rate,
etc.") and are not needed by the claims.
-/

/-- A registry entry: its declared type plus the parameter fields touched
by the excerpt; `none` models an absent dictionary key. -/
structure CompEntry where
  ctype : String
  strength : Option ℚ
  degradationRate : Option ℚ
deriving DecidableEq

/-- The adjustable registry: labelled component entries (Python dict with
insertion order). -/
abbrev Registry := List (String × CompEntry)

/-- The dial data: a flat mapping of parameter keys to numbers. -/
abbrev Dial := List (String × ℚ)

/-- `component_overrides[comp_key] = {param: value}` with Python dict
replacement semantics. -/
def upsertOverride (acc : List (String × String × ℚ)) (k : String)
    (pv : String × ℚ) : List (String × String × ℚ) :=
  if acc.any (fun e => e.1 == k) then
    acc.map (fun e => if e.1 == k then (k, pv) else e)
  else
    acc ++ [(k, pv)]

/-- Priority 1 parsing: pattern-match each dial key into a per-component
override (`promoter1_strength` becomes `promoter_1`.`strength`, and
`cds1_degradation_rate` becomes `cds_1`.`degradation_rate`); other keys
are left for the global-multiplier stage. -/
def parseOverrides (dial : Dial) : List (String × String × ℚ) :=
  dial.foldl
    (fun acc pv =>
      let pn := pv.1
      if strStarts pn "promoter" && strHasSub pn "_strength" then
        upsertOverride acc
          ("promoter_" ++ strReplace (strReplace pn "promoter" "") "_strength" "")
          ("strength", pv.2)
      else if strStarts pn "cds" && strHasSub pn "_degradation_rate" then
        upsertOverride acc
          ("cds_" ++ strReplace (strReplace pn "cds" "") "_degradation_rate" "")
          ("degradation_rate", pv.2)
      else acc)
    []

/-- `adjusted_constants[comp_name][param] = value`. -/
def setParam (e : CompEntry) (param : String) (v : ℚ) : CompEntry :=
  if param == "strength" then { e with strength := some v }
  else if param == "degradation_rate" then { e with degradationRate := some v }
  else e

/-- Apply the individual component overrides to the registry copy
(components absent from the registry are skipped, as in the excerpt's
`if comp_name in adjusted_constants` guard). -/
def applyIndividual (reg : Registry) (ovs : List (String × String × ℚ)) : Registry :=
  ovs.foldl
    (fun r ov =>
      r.map (fun ne => if ne.1 == ov.1 then (ne.1, setParam ne.2 ov.2.1 ov.2.2) else ne))
    reg

/-- `dial_data.get(key, default)`. -/
def dialGet (dial : Dial) (key : String) (dflt : ℚ) : ℚ :=
  match dial.find? (fun kv => kv.1 == key) with
  | some kv => kv.2
  | none => dflt

/-- Priority 2: multiply every promoter's present `strength` by the global
transcription multiplier and every CDS's present `degradation_rate` by the
global degradation multiplier. -/
def applyGlobals (reg : Registry) (gt gd : ℚ) : Registry :=
  reg.map (fun ne =>
    let e := ne.2
    let e1 :=
      if e.ctype == "promoter" then
        match e.strength with
        | some s => { e with strength := some (s * gt) }
        | none => e
      else e
    let e2 :=
      if e1.ctype == "cds" then
        match e1.degradationRate with
        | some d => { e1 with degradationRate := some (d * gd) }
        | none => e1
      else e1
    (ne.1, e2))

/-- The override resolver of the `/simulate` endpoint: individual
overrides first, then global multipliers, and only when `applyDial` is
true and the dial data is non-empty; otherwise the registry copy is
returned unchanged. -/
def resolveConstants (reg : Registry) (dial : Dial) (applyDial : Bool) : Registry :=
  if applyDial && !dial.isEmpty then
    applyGlobals (applyIndividual reg (parseOverrides dial))
      (dialGet dial "global_transcription_rate" 1)
      (dialGet dial "global_degradation_rate" 1)
  else reg

/-- Concrete default registry for the override-precedence scenario:
`promoter_1` with strength `5.0`. -/
def registryC1 : Registry :=
  [("promoter_1", { ctype := "promoter", strength := some 5, degradationRate := none })]

/-- Concrete dial for the override-precedence scenario: a per-instance
override `promoter1_strength = 10.0` and a global multiplier
`global_transcription_rate = 1.5`. -/
def dialC1 : Dial :=
  [("promoter1_strength", 10), ("global_transcription_rate", 3 / 2)]

end MAGiC

namespace MAGiC

/-- Claim C1: with defaults `{promoter_1.strength = 5.0}`, override
`promoter1_strength = 10.0` and global multiplier
`global_transcription_rate = 1.5`, and overrides enabled, the resolved
strength of `promoter_1` is exactly `15.0` (override first, multiplier on
the overridden value), and `15.0` is not `7.5`. -/
theorem c1_override_precedence :
    ((resolveConstants registryC1 dialC1 true).find?
        (fun e => e.1 == "promoter_1")).map (fun e => e.2.strength)
      = some (some (15 : ℚ))
    ∧ (15 : ℚ) ≠ 15 / 2 := by
  constructor
  · simp +decide [resolveConstants, registryC1, dialC1, parseOverrides,
      applyIndividual, applyGlobals, dialGet, upsertOverride, setParam]
    norm_num
  · norm_num

/-- Claim C4: with the apply-overrides flag false, the resolver returns
the registry defaults unchanged, whatever the dial data contains. -/
theorem c4_disabled_overrides (reg : Registry) (dial : Dial) :
    resolveConstants reg dial false = reg := by
  simp [resolveConstants]

/-- Witness for C4 at the concrete registry and a non-trivial dial. -/
theorem c4_disabled_overrides_witness :
    resolveConstants registryC1 dialC1 false = registryC1 :=
  c4_disabled_overrides registryC1 dialC1

end MAGiC

namespace MAGiC

/-! ## Part instances and circuit assembly

Embedded from the `OntologyBuilderUnified` excerpts
(src/unnamed/part_002, lines 596-617 for `build` and 633-662 for
`_finalize_block`): parts are grouped into blocks at `None` boundary
markers; a finalized block first receives its parameters from the
constants table (with the documented fallback defaults), is skipped
entirely when it contains no CDS, and otherwise is named sequentially and
stored.
-/

/-- One placed part: identity, inferred type, global sequence position,
 circuit assignment and its numeric parameter bag. -/
structure Part where
  label : String
  ptype : String
  seqIdx : Nat
  circuitName : String
  strength : ℚ
  efficiency : ℚ
  translationRate : ℚ
  degradationRate : ℚ
  initConc : ℚ
deriving DecidableEq

/-- `self.is_regulator = self.type in ("activator", "repressor",
"inducer", "inhibitor")` (src/unnamed/part_002, line 530). -/
def isRegPart (p : Part) : Bool :=
  ["activator", "repressor", "inducer", "inhibitor"].contains p.ptype

/-- A constants-table entry; `none` models an absent dictionary key. -/
structure ConstEntry where
  strength : Option ℚ
  efficiency : Option ℚ
  translationRate : Option ℚ
  degradationRate : Option ℚ
  initConc : Option ℚ
deriving DecidableEq

/-- The empty constants entry returned by `constants.get(label, {})`. -/
def ConstEntry.empty : ConstEntry := ⟨none, none, none, none, none⟩

/-- Parameter assignment of `_finalize_block` step 1: promoters get
`strength` (default 1.0), RBS get `efficiency` (default 1.0), CDS get
`translation_rate` (default 5.0), `degradation_rate` (default 0.1) and
`init_conc` (default 0.01, src/unnamed/part_001 line 257). -/
def assignParams (cs : List (String × ConstEntry)) (p : Part) : Part :=
  let e := match cs.find? (fun kv => kv.1 == p.label) with
    | some kv => kv.2
    | none => ConstEntry.empty
  if p.ptype == "promoter" then { p with strength := e.strength.getD 1 }
  else if p.ptype == "rbs" then { p with efficiency := e.efficiency.getD 1 }
  else if p.ptype == "cds" then
    { p with translationRate := e.translationRate.getD 5,
             degradationRate := e.degradationRate.getD (1 / 10),
             initConc := e.initConc.getD (1 / 100) }
  else p

/-- A finalized circuit block. -/
structure Circuit where
  name : String
  components : List Part
deriving DecidableEq

/-- `_finalize_block`: assign parameters, drop the block when it has no
CDS, otherwise name it sequentially, tag its parts and store it. -/
def finalizeBlock (cs : List (String × ConstEntry)) (circuits : List Circuit)
    (comps : List Part) : List Circuit :=
  let comps1 := comps.map (assignParams cs)
  if comps1.any (fun c => c.ptype == "cds") then
    let nm := "circuit_" ++ toString (circuits.length + 1)
    circuits ++ [⟨nm, comps1.map (fun c => { c with circuitName := nm })⟩]
  else circuits

/-- The grouping loop of `build`: accumulate parts into a block and
flush the block at each `None` boundary (`if block:` guards the flush). -/
def buildGo (cs : List (String × ConstEntry)) :
    List Circuit → List Part → List (Option Part) → List Circuit
  | circuits, _, [] => circuits
  | circuits, block, none :: rest =>
    buildGo cs (if block.isEmpty then circuits else finalizeBlock cs circuits block) [] rest
  | circuits, block, some p :: rest => buildGo cs circuits (block ++ [p]) rest

/-- `build`: iterate over `self.items + [None]` so the last block is
always flushed. -/
def build (cs : List (String × ConstEntry)) (items : List (Option Part)) : List Circuit :=
  buildGo cs [] [] (items ++ [none])

/-- Parameter assignment never changes a part's type. -/
theorem assignParams_ptype (cs : List (String × ConstEntry)) (p : Part) :
    (assignParams cs p).ptype = p.ptype := by
  unfold assignParams
  repeat' split
  all_goals rfl

/-- A block without any CDS part is dropped by `_finalize_block`. -/
theorem finalizeBlock_no_cds (cs : List (String × ConstEntry))
    (circuits : List Circuit) (comps : List Part)
    (h : ∀ p ∈ comps, p.ptype ≠ "cds") :
    finalizeBlock cs circuits comps = circuits := by
  unfold finalizeBlock
  rw [if_neg]
  simp only [List.any_eq_true, List.mem_map, not_exists, not_and]
  rintro c ⟨p, hp, rfl⟩
  simp [assignParams_ptype, h p hp]

/-- Feeding the grouping loop a run of parts extends the current block. -/
theorem buildGo_run (cs : List (String × ConstEntry)) (blk : List Part) :
    ∀ (circuits : List Circuit) (block : List Part) (rest : List (Option Part)),
      buildGo cs circuits block (blk.map some ++ rest)
        = buildGo cs circuits (block ++ blk) rest := by
  induction blk with
  | nil => intro circuits block rest; simp
  | cons p ps ih =>
    intro circuits block rest
    simp only [List.map_cons, List.cons_append, buildGo, List.append_eq]
    rw [ih]
    simp

end MAGiC

namespace MAGiC

/-- Claim C5: a boundary-delimited block containing zero CDS parts
produces no circuit: the grouping loop reaches the boundary, the
finalizer drops the block, and the output is exactly what the remaining
input produces -- no error, no entry. -/
theorem c5_no_cds_block_dropped (cs : List (String × ConstEntry))
    (circuits : List Circuit) (blk : List Part) (rest : List (Option Part))
    (h : ∀ p ∈ blk, p.ptype ≠ "cds") :
    buildGo cs circuits [] (blk.map some ++ (none :: rest))
      = buildGo cs circuits [] rest := by
  rw [buildGo_run]
  simp only [List.nil_append, buildGo]
  rcases hblk : blk.isEmpty with _ | _
  · simp only [hblk, Bool.false_eq_true, if_false, finalizeBlock_no_cds cs circuits blk h]
  · simp only [hblk, if_true]

/-- A terminator-only part used in concrete examples. -/
def termPartEx : Part :=
  ⟨"terminator_1", "terminator", 0, "", 1, 1, 5, 1 / 10, 1 / 100⟩

/-- Witness for C5: a lone-terminator block between boundaries yields the
same (empty) circuit list as an empty input. -/
theorem c5_no_cds_block_dropped_witness :
    (∀ p ∈ [termPartEx], p.ptype ≠ "cds") ∧
      buildGo [] [] [] ([termPartEx].map some ++ (none :: []))
        = buildGo [] [] [] [] :=
  ⟨by decide, c5_no_cds_block_dropped [] [] [termPartEx] [] (by decide)⟩

end MAGiC

namespace MAGiC

/-! ## Regulation resolution

Embedded from the `_build_regulations` excerpt (src/unnamed/part_002,
lines 687-732) and the regulation-building algorithm excerpt
(src/unnamed/part_001, lines 3136-3162).  A regulator family groups the
`start`/`end` instances of one regulator name together with its type and
floating flag; floating families emit one environmental record per
promoter of every circuit.
-/

/-- A normalized regulation record. -/
structure Regulation where
  source : Option String
  target : String
  rkind : String
deriving DecidableEq

/-- One regulator family as grouped by the builder: `starts`, `ends`,
the regulator type and the floating flag. -/
structure RegFamily where
  starts : List Part
  ends : List Part
  rtype : String
  isFloating : Bool
deriving DecidableEq

/-- Every promoter component across every circuit, in order. -/
def promotersOf (circuits : List Circuit) : List Part :=
  (circuits.map (fun c => c.components.filter (fun p => p.ptype == "promoter"))).join

/-- Case 1 of `_build_regulations`: a floating family emits, for every
promoter of every circuit, one record of type `environmental_<rtype>`
whose source is `starts[0].label`.  The excerpt indexes `starts[0]`
unconditionally (an empty `starts` would raise in Python); the model
emits nothing in that unreachable case. -/
def floatingRegulations (fam : RegFamily) (circuits : List Circuit) : List Regulation :=
  if fam.isFloating then
    match fam.starts with
    | [] => []
    | s :: _ =>
      (promotersOf circuits).map (fun p =>
        { source := some s.label, target := p.label, rkind := "environmental_" ++ fam.rtype })
  else []

/-- Modelled from the spec: the body of `_nearest_prev_non_reg` is not
excerpted in the repository; per the spec it returns the nearest
non-regulator part preceding the given instance by sequence index. -/
def nearestPrevNonReg (parts : List Part) (e : Part) : Option Part :=
  (parts.filter (fun p => !isRegPart p && decide (p.seqIdx < e.seqIdx))).argmax
    (fun p => p.seqIdx)

/-- Modelled from the spec: the body of `_downstream_cds` is not
excerpted in the repository; per the spec it collects every CDS of the
given circuit whose sequence index lies beyond the given position. -/
def downstreamCds (parts : List Part) (circ : String) (idx : Nat) : List Part :=
  parts.filter (fun p =>
    p.ptype == "cds" && p.circuitName == circ && decide (idx < p.seqIdx))

/-- The `end`-instance step of regulation building (src/unnamed/part_001,
lines 3139-3145): the controlling promoter is the nearest preceding
non-regulator part of the `end` instance, and the affected CDS are the
ones downstream of it inside the `end` instance's circuit. -/
def endRegTargets (parts : List Part) (e : Part) : List Part :=
  match nearestPrevNonReg parts e with
  | some prom => downstreamCds parts e.circuitName prom.seqIdx
  | none => []

end MAGiC

namespace MAGiC

/-- A floating repressor family with a single start instance, for the
floating-regulation examples. -/
def repStartEx : Part := ⟨"repressor_x", "repressor", 10, "", 1, 1, 5, 1, 0⟩

/-- A promoter part inside a finalized circuit, for concrete examples. -/
def promoterPartEx : Part := ⟨"promoter_1", "promoter", 0, "circuit_1", 5, 1, 5, 1, 0⟩

/-- A one-promoter circuit, for concrete examples. -/
def circuitEx6 : Circuit := ⟨"circuit_1", [promoterPartEx]⟩

/-- The floating family built over `repStartEx`. -/
def famEx : RegFamily := ⟨[repStartEx], [], "repression", true⟩

/-- Counterexample for claim C6: the record emitted for the floating
family's promoter carries `source = starts[0].label` (here
`"repressor_x"`), not the null source the claim asserts. -/
theorem c6_floating_source_counterexample :
    (floatingRegulations famEx [circuitEx6]).map (fun r => r.source)
        = [some "repressor_x"]
    ∧ some "repressor_x" ≠ (none : Option String) := by
  constructor
  · decide
  · decide

/-- Claim C6 (amended): for a floating regulator family with first start
instance `s`, regulation resolution emits exactly one record per promoter
across every circuit, of kind `environmental_<type>`, whose source is the
label of `s` (the family's first start instance), not null. -/
theorem c6_floating_regulations_amended (fam : RegFamily) (circuits : List Circuit)
    (s : Part) (rest : List Part)
    (hf : fam.isFloating = true) (hs : fam.starts = s :: rest) :
    (floatingRegulations fam circuits).length = (promotersOf circuits).length
    ∧ (floatingRegulations fam circuits).map (fun r => r.target)
        = (promotersOf circuits).map (fun p => p.label)
    ∧ ∀ r ∈ floatingRegulations fam circuits,
        r.source = some s.label ∧ r.rkind = "environmental_" ++ fam.rtype := by
  unfold floatingRegulations
  rw [hf, hs]
  refine ⟨by simp, by simp, ?_⟩
  intro r hr
  simp only [if_true] at hr
  obtain ⟨p, _, rfl⟩ := List.mem_map.1 hr
  exact ⟨rfl, rfl⟩

/-- Witness for the amended C6 at the concrete floating repressor family
and one-promoter circuit. -/
theorem c6_floating_regulations_amended_witness :
    famEx.isFloating = true ∧ famEx.starts = repStartEx :: [] ∧
      ((floatingRegulations famEx [circuitEx6]).length
          = (promotersOf [circuitEx6]).length
        ∧ (floatingRegulations famEx [circuitEx6]).map (fun r => r.target)
            = (promotersOf [circuitEx6]).map (fun p => p.label)
        ∧ ∀ r ∈ floatingRegulations famEx [circuitEx6],
            r.source = some repStartEx.label
              ∧ r.rkind = "environmental_" ++ famEx.rtype) :=
  ⟨rfl, rfl, c6_floating_regulations_amended famEx [circuitEx6] repStartEx [] rfl rfl⟩

/-- Claim C7: when the resolver locates `prom` for an `end` regulator
instance `e`, then `prom` is the nearest non-regulator part preceding `e`
by sequence index (it precedes `e`, is no regulator, and no other
preceding non-regulator part lies closer), and the regulation's targets
are exactly the CDS parts of `e`'s circuit downstream of `prom`. -/
theorem c7_end_regulator_targets (parts : List Part) (e prom : Part)
    (h : nearestPrevNonReg parts e = some prom) :
    prom ∈ parts ∧ isRegPart prom = false ∧ prom.seqIdx < e.seqIdx
    ∧ (∀ q ∈ parts, isRegPart q = false → q.seqIdx < e.seqIdx → q.seqIdx ≤ prom.seqIdx)
    ∧ endRegTargets parts e
        = parts.filter (fun p =>
            p.ptype == "cds" && p.circuitName == e.circuitName
              && decide (prom.seqIdx < p.seqIdx)) := by
  have hopt : prom ∈ (parts.filter
      (fun p => !isRegPart p && decide (p.seqIdx < e.seqIdx))).argmax (fun p => p.seqIdx) :=
    Option.mem_def.mpr h
  have hmem := List.argmax_mem hopt
  rw [List.mem_filter] at hmem
  obtain ⟨hin, hcond⟩ := hmem
  have hcond' := hcond
  simp only [Bool.and_eq_true, Bool.not_eq_true', decide_eq_true_eq] at hcond'
  refine ⟨hin, hcond'.1, hcond'.2, ?_, ?_⟩
  · intro q hq hq1 hq2
    have hqf : q ∈ parts.filter (fun p => !isRegPart p && decide (p.seqIdx < e.seqIdx)) :=
      List.mem_filter.mpr ⟨hq, by simp [hq1, hq2]⟩
    exact List.le_of_mem_argmax hqf hopt
  · simp [endRegTargets, h, downstreamCds]

/-- Parts for the positional-regulator example: a promoter, an `end`
repressor instance right after it, then an RBS and a CDS downstream. -/
def partsC7 : List Part :=
  [⟨"promoter_1", "promoter", 0, "circuit_1", 5, 1, 5, 1, 0⟩,
   ⟨"repressor_a_end", "repressor", 1, "circuit_1", 1, 1, 5, 1, 0⟩,
   ⟨"rbs_1", "rbs", 2, "circuit_1", 1, 1, 5, 1, 0⟩,
   ⟨"cds_1", "cds", 3, "circuit_1", 1, 1, 7, 1, 0⟩]

/-- The `end` instance of the positional-regulator example. -/
def endRegEx : Part := ⟨"repressor_a_end", "repressor", 1, "circuit_1", 1, 1, 5, 1, 0⟩

/-- Witness for C7 at the concrete example: the nearest preceding
non-regulator of the `end` instance is the promoter at index 0. -/
theorem c7_end_regulator_targets_witness :
    nearestPrevNonReg partsC7 endRegEx
        = some ⟨"promoter_1", "promoter", 0, "circuit_1", 5, 1, 5, 1, 0⟩ ∧
      (⟨"promoter_1", "promoter", 0, "circuit_1", 5, 1, 5, 1, 0⟩ : Part) ∈ partsC7 :=
  ⟨by decide,
    (c7_end_regulator_targets partsC7 endRegEx
      ⟨"promoter_1", "promoter", 0, "circuit_1", 5, 1, 5, 1, 0⟩ (by decide)).1⟩

end MAGiC

namespace MAGiC

/-! ## Constitutive fallback and ODE parameter setup

`_add_constitutive_regulations` is named in the `build` excerpt
(src/unnamed/part_002, line 617) but its body is not excerpted anywhere
in the repository; it is modelled from the spec below.  The per-CDS ODE
parameter setup is embedded from the `simulate_circuit` excerpt
(src/unnamed/part_002, lines 766-790), corroborated by the parameter
dictionary construction excerpt (src/unnamed/part_001, lines 2655-2682)
for the production-rate product.
-/

/-- Modelled from the spec: the body of `find_upstream_promoter` is not
excerpted in the repository; per the spec the upstream promoter of a CDS
is the nearest preceding promoter of its circuit by sequence index. -/
def findUpstreamPromoter (c : Circuit) (comp : Part) : Option Part :=
  (c.components.filter (fun p =>
    p.ptype == "promoter" && decide (p.seqIdx < comp.seqIdx))).argmax (fun p => p.seqIdx)

/-- Modelled from the spec: the body of `find_upstream_rbs` is not
excerpted in the repository; per the spec the upstream RBS of a CDS is
the nearest preceding RBS of its circuit by sequence index. -/
def findUpstreamRbs (c : Circuit) (comp : Part) : Option Part :=
  (c.components.filter (fun p =>
    p.ptype == "rbs" && decide (p.seqIdx < comp.seqIdx))).argmax (fun p => p.seqIdx)

/-- The ODE parameter record built per CDS by `simulate_circuit`. -/
structure CdsParams where
  k0 : ℚ
  kprod : ℚ
  degradation : ℚ
  initialConc : ℚ
deriving DecidableEq

/-- The parameter setup of `simulate_circuit` (src/unnamed/part_002,
lines 774-789): `k_prod = promoter["strength"] * rbs["efficiency"] *
comp["translation_rate"]` and `"k0": 0.0`; fallibility of the upstream
lookups is modelled with `Option`. -/
def cdsParamsFor (c : Circuit) (comp : Part) : Option CdsParams :=
  match findUpstreamPromoter c comp, findUpstreamRbs c comp with
  | some prom, some rbs =>
    some { k0 := 0,
           kprod := prom.strength * rbs.efficiency * comp.translationRate,
           degradation := comp.degradationRate,
           initialConc := comp.initConc }
  | _, _ => none

/-- Unfolding of `cdsParamsFor` when both upstream lookups succeed. -/
theorem cdsParamsFor_eq (c : Circuit) (comp prom rbs : Part)
    (hp : findUpstreamPromoter c comp = some prom)
    (hr : findUpstreamRbs c comp = some rbs) :
    cdsParamsFor c comp
      = some { k0 := 0,
               kprod := prom.strength * rbs.efficiency * comp.translationRate,
               degradation := comp.degradationRate,
               initialConc := comp.initConc } := by
  unfold cdsParamsFor
  rw [hp, hr]

/-- A synthesized constitutive regulation record. -/
def mkConstitutive (pl : String) : Regulation :=
  { source := none, target := pl, rkind := "constitutive" }

/-- The governing promoter label of every CDS across the circuits (CDS
whose circuit has no preceding promoter contribute nothing). -/
def governingPromoterLabels (circuits : List Circuit) : List String :=
  (circuits.map (fun c =>
    (c.components.filter (fun p => p.ptype == "cds")).filterMap
      (fun comp => (findUpstreamPromoter c comp).map (fun p => p.label)))).join

/-- Modelled from the spec: the body of `_add_constitutive_regulations`
is not excerpted in the repository; per the spec, after the explicit
regulations are built, every governing promoter that no regulation
record targets receives exactly one synthesized `constitutive` record. -/
def addConstitutiveRegulations (regs : List Regulation) (circuits : List Circuit) :
    List Regulation :=
  regs ++ (((governingPromoterLabels circuits).dedup.filter
      (fun q => !(regs.any (fun r => r.target == q)))).map mkConstitutive)

/-- Membership in the to-be-synthesized promoter list: exactly the
governing promoters that no explicit record targets. -/
theorem mem_constitutive_pending (regs : List Regulation) (circuits : List Circuit)
    (pl : String) :
    pl ∈ (governingPromoterLabels circuits).dedup.filter
        (fun q => !(regs.any (fun r => r.target == q)))
      ↔ pl ∈ governingPromoterLabels circuits
          ∧ regs.any (fun r => r.target == pl) = false := by
  rw [List.mem_filter, List.mem_dedup]
  simp

/-- The record count targeting a governing promoter after the
constitutive pass: the explicit count, plus one exactly when no explicit
record targets it. -/
theorem addConstitutive_count (regs : List Regulation) (circuits : List Circuit)
    (pl : String) (hp : pl ∈ governingPromoterLabels circuits) :
    ((addConstitutiveRegulations regs circuits).filter (fun r => r.target == pl)).length
      = (regs.filter (fun r => r.target == pl)).length
        + (if regs.any (fun r => r.target == pl) then 0 else 1) := by
  unfold addConstitutiveRegulations
  rw [List.filter_append, List.length_append]
  congr 1
  rw [← List.countP_eq_length_filter, List.countP_map]
  have hfun : ((fun r => r.target == pl) ∘ mkConstitutive) = fun q => q == pl := by
    funext q
    simp [mkConstitutive]
  rw [hfun]
  have hcc : ((governingPromoterLabels circuits).dedup.filter
        (fun q => !(regs.any (fun r => r.target == q)))).countP (fun q => q == pl)
      = ((governingPromoterLabels circuits).dedup.filter
        (fun q => !(regs.any (fun r => r.target == q)))).count pl := rfl
  rw [hcc]
  have hnodup : ((governingPromoterLabels circuits).dedup.filter
      (fun q => !(regs.any (fun r => r.target == q)))).Nodup :=
    (List.nodup_dedup _).filter _
  by_cases hm : regs.any (fun r => r.target == pl) = true
  · rw [if_pos hm, List.count_eq_zero_of_not_mem]
    intro hmem
    exact absurd hm (by simpa [hm] using ((mem_constitutive_pending regs circuits pl).1 hmem).2)
  · rw [if_neg hm, List.count_eq_one_of_mem hnodup]
    exact (mem_constitutive_pending regs circuits pl).2
      ⟨hp, Bool.not_eq_true _ ▸ eq_false_of_ne_true hm⟩

end MAGiC

namespace MAGiC

/-- The count of synthesized `constitutive` records targeting a governing
promoter that no explicit record targets is exactly one. -/
theorem addConstitutive_kind_count (regs : List Regulation) (circuits : List Circuit)
    (pl : String) (hp : pl ∈ governingPromoterLabels circuits)
    (hm : regs.any (fun r => r.target == pl) = false) :
    ((addConstitutiveRegulations regs circuits).filter
        (fun r => r.target == pl && r.rkind == "constitutive")).length = 1 := by
  unfold addConstitutiveRegulations
  rw [List.filter_append, List.length_append]
  have h1 : (regs.filter (fun r => r.target == pl && r.rkind == "constitutive")).length = 0 := by
    rw [List.length_eq_zero, List.filter_eq_nil]
    intro r hr hc
    rw [Bool.and_eq_true] at hc
    have : regs.any (fun r => r.target == pl) = true :=
      List.any_eq_true.mpr ⟨r, hr, hc.1⟩
    rw [hm] at this
    exact Bool.false_ne_true this
  rw [h1]
  rw [← List.countP_eq_length_filter, List.countP_map]
  have hfun : ((fun r => r.target == pl && r.rkind == "constitutive") ∘ mkConstitutive)
      = fun q => q == pl := by
    funext q
    simp [mkConstitutive]
  rw [hfun]
  have hcc : ((governingPromoterLabels circuits).dedup.filter
        (fun q => !(regs.any (fun r => r.target == q)))).countP (fun q => q == pl)
      = ((governingPromoterLabels circuits).dedup.filter
        (fun q => !(regs.any (fun r => r.target == q)))).count pl := rfl
  rw [hcc]
  have hnodup : ((governingPromoterLabels circuits).dedup.filter
      (fun q => !(regs.any (fun r => r.target == q)))).Nodup :=
    (List.nodup_dedup _).filter _
  rw [List.count_eq_one_of_mem hnodup
    ((mem_constitutive_pending regs circuits pl).2 ⟨hp, hm⟩)]

/-- Claim C3: after the constitutive pass, every CDS's governing promoter
is targeted by at least one regulation record; the count never exceeds
the explicitly matched count plus one; and a promoter matched by no
explicit record gets exactly one record, a synthesized `constitutive`
one. -/
theorem c3_regulation_completeness (regs : List Regulation) (circuits : List Circuit)
    (pl : String) (hp : pl ∈ governingPromoterLabels circuits) :
    1 ≤ ((addConstitutiveRegulations regs circuits).filter (fun r => r.target == pl)).length
    ∧ ((addConstitutiveRegulations regs circuits).filter (fun r => r.target == pl)).length
        ≤ (regs.filter (fun r => r.target == pl)).length + 1
    ∧ ((regs.filter (fun r => r.target == pl)).length = 0 →
        ((addConstitutiveRegulations regs circuits).filter
            (fun r => r.target == pl)).length = 1
        ∧ ((addConstitutiveRegulations regs circuits).filter
            (fun r => r.target == pl && r.rkind == "constitutive")).length = 1) := by
  have h := addConstitutive_count regs circuits pl hp
  by_cases hm : regs.any (fun r => r.target == pl) = true
  · rw [if_pos hm] at h
    have hpos : 0 < (regs.filter (fun r => r.target == pl)).length := by
      obtain ⟨r, hr, hrt⟩ := List.any_eq_true.mp hm
      exact List.length_pos.mpr (List.ne_nil_of_mem (List.mem_filter.mpr ⟨hr, hrt⟩))
    refine ⟨by omega, by omega, ?_⟩
    intro hz
    omega
  · have hm' : regs.any (fun r => r.target == pl) = false :=
      Bool.not_eq_true _ ▸ eq_false_of_ne_true hm
    rw [if_neg hm] at h
    have hz : (regs.filter (fun r => r.target == pl)).length = 0 := by
      rw [List.length_eq_zero, List.filter_eq_nil]
      intro r hr hc
      have : regs.any (fun r => r.target == pl) = true := List.any_eq_true.mpr ⟨r, hr, hc⟩
      rw [hm'] at this
      exact Bool.false_ne_true this
    exact ⟨by omega, by omega, fun _ =>
      ⟨by omega, addConstitutive_kind_count regs circuits pl hp hm'⟩⟩

/-- The promoter of the single-gene example circuit. -/
def promC2 : Part := ⟨"promoter_1", "promoter", 0, "circuit_1", 5, 1, 5, 1, 0⟩

/-- The RBS of the single-gene example circuit. -/
def rbsC2 : Part := ⟨"rbs_1", "rbs", 1, "circuit_1", 1, 1, 5, 1, 0⟩

/-- The CDS of the single-gene example circuit: translation rate `7.0`,
degradation rate `1.0`, initial concentration `0`. -/
def cdsC2 : Part := ⟨"cds_1", "cds", 2, "circuit_1", 1, 1, 7, 1, 0⟩

/-- The single-gene example circuit `promoter - rbs - cds`. -/
def circuitC2 : Circuit := ⟨"circuit_1", [promC2, rbsC2, cdsC2]⟩

/-- Witness for C3 at the single-gene circuit with no explicit
regulations: its governing promoter receives exactly one record. -/
theorem c3_regulation_completeness_witness :
    "promoter_1" ∈ governingPromoterLabels [circuitC2] ∧
      (1 ≤ ((addConstitutiveRegulations [] [circuitC2]).filter
          (fun r => r.target == "promoter_1")).length
      ∧ ((addConstitutiveRegulations [] [circuitC2]).filter
            (fun r => r.target == "promoter_1")).length
          ≤ (([] : List Regulation).filter (fun r => r.target == "promoter_1")).length + 1
      ∧ ((([] : List Regulation).filter (fun r => r.target == "promoter_1")).length = 0 →
          ((addConstitutiveRegulations [] [circuitC2]).filter
              (fun r => r.target == "promoter_1")).length = 1
          ∧ ((addConstitutiveRegulations [] [circuitC2]).filter
              (fun r => r.target == "promoter_1" && r.rkind == "constitutive")).length = 1)) :=
  ⟨by decide, c3_regulation_completeness [] [circuitC2] "promoter_1" (by decide)⟩

end MAGiC

namespace MAGiC

/-- Counterexample for claim C2: on the single-gene circuit with promoter
strength `5.0`, RBS efficiency `1.0` and CDS translation rate `7.0`, the
parameter setup yields `kprod = 5 * 1 * 7 = 35` (the translation rate IS
a factor), not `5 * 1 * 1`, and `k0 = 0`, not `0.01 * kprod`. -/
theorem c2_kprod_counterexample :
    cdsParamsFor circuitC2 cdsC2
        = some { k0 := 0, kprod := 5 * 1 * 7, degradation := 1, initialConc := 0 }
    ∧ (5 * 1 * 7 : ℚ) ≠ 5 * 1 * 1
    ∧ ((0 : ℚ) ≠ (1 / 100) * (5 * 1 * 7)) := by
  refine ⟨?_, by norm_num, by norm_num⟩
  rw [cdsParamsFor_eq circuitC2 cdsC2 promC2 rbsC2 (by decide) (by decide)]
  rfl

/-- Claim C2 (amended): for every CDS whose upstream promoter and RBS
lookups succeed, `simulate_circuit` sets `kprod` to the upstream
promoter's strength times the upstream RBS's efficiency times the CDS's
own translation rate (so the translation rate is a factor), and sets the
basal leak `k0` to `0.0`; the upstream parts really are the nearest
preceding promoter and RBS of the circuit by sequence index. -/
theorem c2_kprod_amended (c : Circuit) (comp prom rbs : Part)
    (hp : findUpstreamPromoter c comp = some prom)
    (hr : findUpstreamRbs c comp = some rbs) :
    cdsParamsFor c comp
      = some { k0 := 0,
               kprod := prom.strength * rbs.efficiency * comp.translationRate,
               degradation := comp.degradationRate,
               initialConc := comp.initConc }
    ∧ prom ∈ c.components ∧ prom.ptype = "promoter" ∧ prom.seqIdx < comp.seqIdx
    ∧ rbs ∈ c.components ∧ rbs.ptype = "rbs" ∧ rbs.seqIdx < comp.seqIdx := by
  have hpm := List.argmax_mem (Option.mem_def.mpr hp)
  have hrm := List.argmax_mem (Option.mem_def.mpr hr)
  rw [List.mem_filter] at hpm hrm
  obtain ⟨hpin, hpc⟩ := hpm
  obtain ⟨hrin, hrc⟩ := hrm
  rw [Bool.and_eq_true, beq_iff_eq, decide_eq_true_eq] at hpc hrc
  exact ⟨cdsParamsFor_eq c comp prom rbs hp hr,
    hpin, hpc.1, hpc.2, hrin, hrc.1, hrc.2⟩

/-- Witness for the amended C2 at the single-gene circuit. -/
theorem c2_kprod_amended_witness :
    findUpstreamPromoter circuitC2 cdsC2 = some promC2
    ∧ findUpstreamRbs circuitC2 cdsC2 = some rbsC2
    ∧ (cdsParamsFor circuitC2 cdsC2
        = some { k0 := 0,
                 kprod := promC2.strength * rbsC2.efficiency * cdsC2.translationRate,
                 degradation := cdsC2.degradationRate,
                 initialConc := cdsC2.initConc }
      ∧ promC2 ∈ circuitC2.components ∧ promC2.ptype = "promoter"
          ∧ promC2.seqIdx < cdsC2.seqIdx
      ∧ rbsC2 ∈ circuitC2.components ∧ rbsC2.ptype = "rbs"
          ∧ rbsC2.seqIdx < cdsC2.seqIdx) :=
  ⟨by decide, by decide,
    c2_kprod_amended circuitC2 cdsC2 promC2 rbsC2 (by decide) (by decide)⟩

end MAGiC

namespace MAGiC

/-! ## Hill kinetics and integration seeding

The Hill branches are embedded from the `rhs` excerpt
(src/unnamed/part_002, lines 815-826); the symmetry-breaking seeding is
embedded from the ODE-solution excerpt (src/unnamed/part_001, lines
3168-3177).
-/

/-- The repression branch of the `rhs` Hill evaluation:
`Kd**n / (Kd**n + source_conc**n)`. -/
def hillRepression (Kd conc : ℚ) (n : ℕ) : ℚ :=
  Kd ^ n / (Kd ^ n + conc ^ n)

/-- The activation branch of the `rhs` Hill evaluation:
`source_conc**n / (Kd**n + source_conc**n)`. -/
def hillActivation (Kd conc : ℚ) (n : ℕ) : ℚ :=
  conc ^ n / (Kd ^ n + conc ^ n)

/-- Seeding of the initial conditions (src/unnamed/part_001, lines
3168-3177): when there are at least three proteins, the feedback flag is
set and every supplied concentration is zero, the state is replaced by
the literal `[1.0, 0.1, 0.05]`; otherwise by the equal small start
`[0.01] * len(p0)`.  The `has_regulatory_feedback` flag is computed by
code that is not excerpted in the repository and is modelled as a
Boolean parameter (per the spec it is set when the regulation graph
contains a feedback cycle of length at least 3). -/
def seedInitials (hasFeedback : Bool) (p0 : List ℚ) : List ℚ :=
  if decide (3 ≤ p0.length) && hasFeedback && p0.all (fun v => v == 0) then
    [1, 1 / 10, 1 / 20]
  else
    List.replicate p0.length (1 / 100)

/-- Follows the spec's words, for comparison with the embedded seeding:
the asymmetric seed sequence `[1.0, 0.1, 0.05, ...]` cycling, cut to the
protein count. -/
def cycledSeedSpec (n : ℕ) : List ℚ :=
  (List.range n).map (fun i => [(1 : ℚ), 1 / 10, 1 / 20].getD (i % 3) 0)

/-- A fixed-step explicit integrator standing for the numerical solver:
like `odeint`, the returned trajectory starts at the initial state. -/
def eulerTraj (f : List ℚ → List ℚ) (dt : ℚ) : ℕ → List ℚ → List (List ℚ)
  | 0, p => [p]
  | n + 1, p => p :: eulerTraj f dt n (List.zipWith (fun a b => a + dt * b) p (f p))

/-- The initial state is part of the returned trajectory. -/
theorem eulerTraj_head_mem (f : List ℚ → List ℚ) (dt : ℚ) (n : ℕ) (p : List ℚ) :
    p ∈ eulerTraj f dt n p := by
  cases n <;> simp [eulerTraj]

end MAGiC

namespace MAGiC

/-- Claim C8: with `Kr = 0.5` and `n = 2`, the repression factor is
exactly `1.0` at source concentration `0` and strictly below `0.02` at
source concentration `5.0`. -/
theorem c8_hill_boundary :
    hillRepression (1 / 2) 0 2 = 1 ∧ hillRepression (1 / 2) 5 2 < 2 / 100 := by
  constructor <;> norm_num [hillRepression]

/-- Counterexample for claim C9: with four all-zero proteins in a
feedback loop, the embedded seeding yields the literal three-element list
`[1.0, 0.1, 0.05]`, not the four-element cycled sequence
`[1.0, 0.1, 0.05, 1.0]` the claim asserts. -/
theorem c9_seed_counterexample :
    seedInitials true [0, 0, 0, 0] = [1, 1 / 10, 1 / 20]
    ∧ cycledSeedSpec 4 = [1, 1 / 10, 1 / 20, 1]
    ∧ ([(1 : ℚ), 1 / 10, 1 / 20] : List ℚ) ≠ [1, 1 / 10, 1 / 20, 1] := by
  refine ⟨?_, ?_, ?_⟩
  · simp +decide [seedInitials]
  · simp [cycledSeedSpec, List.range_succ]
  · intro h
    simpa using congrArg List.length h

/-- Claim C9 (amended): with the feedback flag set, at least three
proteins, and an all-zero supplied initial state, the integrator's
initial conditions are replaced by the fixed literal seed
`[1.0, 0.1, 0.05]` (which matches the spec's cycling sequence only for
exactly three proteins), and consequently the returned trajectory
contains a state with a non-zero concentration. -/
theorem c9_symmetry_breaking_amended (hasFeedback : Bool) (p0 : List ℚ)
    (hf : hasFeedback = true) (hlen : 3 ≤ p0.length) (hz : ∀ v ∈ p0, v = 0) :
    seedInitials hasFeedback p0 = [1, 1 / 10, 1 / 20]
    ∧ ∀ (f : List ℚ → List ℚ) (dt : ℚ) (n : ℕ),
        ∃ st ∈ eulerTraj f dt n (seedInitials hasFeedback p0), ∃ v ∈ st, v ≠ 0 := by
  have hseed : seedInitials hasFeedback p0 = [1, 1 / 10, 1 / 20] := by
    unfold seedInitials
    rw [if_pos]
    rw [hf]
    simp only [Bool.and_eq_true, decide_eq_true_eq, List.all_eq_true]
    refine ⟨⟨hlen, trivial⟩, ?_⟩
    intro v hv
    exact beq_iff_eq.mpr (hz v hv)
  refine ⟨hseed, ?_⟩
  intro f dt n
  refine ⟨seedInitials hasFeedback p0, eulerTraj_head_mem f dt n _, 1, ?_, one_ne_zero⟩
  rw [hseed]
  simp

/-- Witness for the amended C9 at a three-protein all-zero state. -/
theorem c9_symmetry_breaking_amended_witness :
    (3 ≤ ([0, 0, 0] : List ℚ).length ∧ ∀ v ∈ ([0, 0, 0] : List ℚ), v = 0)
    ∧ seedInitials true [0, 0, 0] = [1, 1 / 10, 1 / 20] :=
  ⟨⟨by norm_num, by simp⟩,
    (c9_symmetry_breaking_amended true [0, 0, 0] rfl (by norm_num) (by simp)).1⟩

end MAGiC

namespace MAGiC

/-! ## Frontend board state (eeprom.js)

Embedded from src/unnamed/part_000: the cell click handler (lines
397-445) appends the new component both to `state.placedComponents` and
to `state.cellboard[type]`, and `removeComponent` (lines 536-591) first
splices the match out of `state.placedComponents` and scans
`state.cellboard` only when nothing was found there (`if (!removed)`).
`findIndex` followed by `splice(index, 1)` is modelled by a single
first-match removal.
-/

/-- One placed component as stored in the frontend state (the fields the
claims touch). -/
structure PlacedComp where
  ctype : String
  number : Nat
  x : Int
  y : Int
deriving DecidableEq

/-- The frontend application state slices relevant to placement. -/
structure BoardState where
  placedComponents : List PlacedComp
  componentCounts : List (String × Nat)
  cellboard : List (String × List PlacedComp)
deriving DecidableEq

/-- `findIndex(c => c.x === x && c.y === y)` followed by
`splice(index, 1)`: remove the first coordinate match and return it. -/
def removeFirstXY : List PlacedComp → Int → Int → List PlacedComp × Option PlacedComp
  | [], _, _ => ([], none)
  | c :: rest, x, y =>
    if c.x == x && c.y == y then (rest, some c)
    else
      let r := removeFirstXY rest x y
      (c :: r.1, r.2)

/-- The auto-numbering bump of `state.componentCounts[baseType]`. -/
def countsBump (counts : List (String × Nat)) (k : String) : List (String × Nat) × Nat :=
  match counts.find? (fun e => e.1 == k) with
  | some e => (counts.map (fun e2 => if e2.1 == k then (k, e2.2 + 1) else e2), e.2 + 1)
  | none => (counts ++ [(k, 1)], 1)

/-- `if (!state.cellboard[type]) state.cellboard[type] = [];
state.cellboard[type].push(component)`. -/
def cbPush (cb : List (String × List PlacedComp)) (t : String) (c : PlacedComp) :
    List (String × List PlacedComp) :=
  if cb.any (fun e => e.1 == t) then
    cb.map (fun e => if e.1 == t then (e.1, e.2 ++ [c]) else e)
  else
    cb ++ [(t, [c])]

/-- The cell click placement handler: when the cell was occupied the
existing coordinate match is spliced out of `placedComponents` first;
then the counter is bumped, and the new component is appended to both
`placedComponents` and `cellboard[type]`. -/
def placeComponent (st : BoardState) (ctype : String) (x y : Int) (occupied : Bool) :
    BoardState :=
  let placed0 := if occupied then (removeFirstXY st.placedComponents x y).1
    else st.placedComponents
  let baseType := strReplace (strLower ctype) " " "_"
  let bumped := countsBump st.componentCounts baseType
  let comp : PlacedComp := ⟨ctype, bumped.2, x, y⟩
  { placedComponents := placed0 ++ [comp],
    componentCounts := bumped.1,
    cellboard := cbPush st.cellboard ctype comp }

/-- The `for (const [type, components] of Object.entries(state.cellboard))`
scan of `removeComponent`: splice the first coordinate match out of the
first entry that has one. -/
def cbRemoveFirst : List (String × List PlacedComp) → Int → Int →
    List (String × List PlacedComp) × Option PlacedComp
  | [], _, _ => ([], none)
  | e :: rest, x, y =>
    let r := removeFirstXY e.2 x y
    match r.2 with
    | some c => ((e.1, r.1) :: rest, some c)
    | none =>
      let rr := cbRemoveFirst rest x y
      (e :: rr.1, rr.2)

/-- `removeComponent(x, y)`: splice the coordinate match out of
`placedComponents`; scan the cellboard only when nothing was removed
there. -/
def removeComponent (st : BoardState) (x y : Int) : BoardState × Option PlacedComp :=
  let r := removeFirstXY st.placedComponents x y
  match r.2 with
  | some c => ({ st with placedComponents := r.1 }, some c)
  | none =>
    let rr := cbRemoveFirst st.cellboard x y
    ({ st with cellboard := rr.1 }, rr.2)

/-- Removing from a list whose only coordinate match is the appended last
element returns exactly that element and the original list. -/
theorem removeFirstXY_append_single (l : List PlacedComp) (c : PlacedComp) (x y : Int)
    (h : ∀ a ∈ l, ¬(a.x = x ∧ a.y = y)) (hc : c.x = x ∧ c.y = y) :
    removeFirstXY (l ++ [c]) x y = (l, some c) := by
  induction l with
  | nil =>
    simp only [List.nil_append, removeFirstXY]
    rw [if_pos]
    simp [hc.1, hc.2]
  | cons a as ih =>
    have ha : ¬((a.x == x && a.y == y) = true) := by
      simp only [Bool.and_eq_true, beq_iff_eq]
      exact h a (List.mem_cons_self _ _)
    simp only [List.cons_append, removeFirstXY]
    rw [if_neg ha]
    simp only [List.append_eq]
    rw [ih (fun b hb => h b (List.mem_cons_of_mem _ hb))]

/-- The pushed component is present in the cellboard entry of its type. -/
theorem cbPush_mem (cb : List (String × List PlacedComp)) (t : String) (c : PlacedComp) :
    ∃ e ∈ cbPush cb t c, e.1 = t ∧ c ∈ e.2 := by
  unfold cbPush
  by_cases hany : cb.any (fun e => e.1 == t) = true
  · rw [if_pos hany]
    obtain ⟨e, he, het⟩ := List.any_eq_true.mp hany
    have himg := List.mem_map_of_mem
      (fun e => if e.1 == t then (e.1, e.2 ++ [c]) else e) he
    simp only [het, if_true] at himg
    exact ⟨(e.1, e.2 ++ [c]), himg, beq_iff_eq.mp het, by simp⟩
  · rw [if_neg hany]
    exact ⟨(t, [c]), by simp, rfl, by simp⟩

end MAGiC

namespace MAGiC

/-- Claim C10: placing a component on an empty cell through the click
handler and then calling `removeComponent` at its coordinates returns the
component, restores `placedComponents` to its previous value, and leaves
the cellboard untouched -- in particular the cellboard entry of the
component's type still contains it, because the cellboard scan does not
run once a `placedComponents` match was found. -/
theorem c10_remove_leaves_cellboard (st : BoardState) (ctype : String) (x y : Int)
    (h : ∀ a ∈ st.placedComponents, ¬(a.x = x ∧ a.y = y)) :
    (removeComponent (placeComponent st ctype x y false) x y).2
        = some ⟨ctype, (countsBump st.componentCounts
            (strReplace (strLower ctype) " " "_")).2, x, y⟩
    ∧ (removeComponent (placeComponent st ctype x y false) x y).1.placedComponents
        = st.placedComponents
    ∧ (removeComponent (placeComponent st ctype x y false) x y).1.cellboard
        = (placeComponent st ctype x y false).cellboard
    ∧ ∃ e ∈ (removeComponent (placeComponent st ctype x y false) x y).1.cellboard,
        e.1 = ctype
        ∧ (⟨ctype, (countsBump st.componentCounts
            (strReplace (strLower ctype) " " "_")).2, x, y⟩ : PlacedComp) ∈ e.2 := by
  have hrem : removeFirstXY (placeComponent st ctype x y false).placedComponents x y
      = (st.placedComponents,
          some ⟨ctype, (countsBump st.componentCounts
            (strReplace (strLower ctype) " " "_")).2, x, y⟩) :=
    removeFirstXY_append_single st.placedComponents _ x y h ⟨rfl, rfl⟩
  have hrc : removeComponent (placeComponent st ctype x y false) x y
      = ({ placeComponent st ctype x y false with
            placedComponents := st.placedComponents },
          some ⟨ctype, (countsBump st.componentCounts
            (strReplace (strLower ctype) " " "_")).2, x, y⟩) := by
    unfold removeComponent
    rw [hrem]
  rw [hrc]
  exact ⟨rfl, rfl, rfl, cbPush_mem st.cellboard ctype _⟩

/-- Witness for C10: placing a promoter at the origin of an empty board
and removing it there returns the component while the cellboard entry
keeps it. -/
theorem c10_remove_leaves_cellboard_witness :
    (∀ a ∈ (⟨[], [], []⟩ : BoardState).placedComponents, ¬(a.x = 0 ∧ a.y = 0))
    ∧ ∃ e ∈ (removeComponent (placeComponent ⟨[], [], []⟩ "Promoter" 0 0 false) 0 0).1.cellboard,
        e.1 = "Promoter"
        ∧ (⟨"Promoter", (countsBump (⟨[], [], []⟩ : BoardState).componentCounts
            (strReplace (strLower "Promoter") " " "_")).2, 0, 0⟩ : PlacedComp) ∈ e.2 :=
  ⟨by simp,
    (c10_remove_leaves_cellboard ⟨[], [], []⟩ "Promoter" 0 0 (by simp)).2.2.2⟩

end MAGiC
